import Mathlib

/-!
# fonts/fonts.h : the declaration surface of the font and image assets

The repository is one C header, `src/fonts/fonts.h`.  What the header does is
decided by the C preprocessor (conditional inclusion under an include guard and
under `__cplusplus`) and by the declarations it leaves in the translation unit.

The development below

* keeps the header's text verbatim (`fontsSource`, one string per source line),
* lexes and classifies each line (`lexLine`, `classify`),
* runs the preprocessor over the classified lines (`step`, `includeFile`),
  starting from a table of macro definitions: conditional inclusion, `#define`,
  and macro replacement of the text lines (`expandTok`, `expandLine`),
* reads the emitted lines as C declarations (`parseDecl`, `declsOf`).

Scope of the model: a macro state is a table of object-like macros, each with
its replacement list; replacement rescans the replacement list with the macro
being replaced disabled.  Function-like macros and the operators `#` and `##`
are outside the model.  The header `lvgl/lvgl.h` belongs to another project, so
its inclusion is recorded as an event of the output and its contents are not
expanded.
-/

namespace Fonts

/-! ## Tokens and lines -/

/-- Preprocessing tokens of a header line. -/
inductive Tok where
  | ident (s : String)
  | strLit (s : String)
  | punct (c : Char)
  deriving DecidableEq, Repr

/-- A source line after classification: a directive or a line of text. -/
inductive Line where
  | ifndef (m : String)
  | ifdef (m : String)
  | define (m : String)
  | incl (path : String)
  | endif
  | text (toks : List Tok)
  deriving DecidableEq, Repr

/-- The text of `src/fonts/fonts.h`, one entry per source line. -/
def fontsSource : List String :=
  [ "#ifndef FONTS_QUICKSAND_256_H",
    "#define FONTS_QUICKSAND_256_H",
    "",
    "#include \"lvgl/lvgl.h\"",
    "",
    "#ifdef __cplusplus",
    "extern \"C\" \x7b",
    "#endif",
    "",
    "extern lv_font_t quicksand_200;",
    "extern lv_font_t open_sans_48;",
    "extern lv_font_t sf_symbols_48;",
    "extern lv_img_dsc_t cursor;",
    "",
    "#ifdef __cplusplus",
    "\x7d",
    "#endif",
    "#endif // FONTS_QUICKSAND_256_H" ]

/-! ## Lexing -/

/-- Characters of an identifier. -/
def isIdentChar (c : Char) : Bool :=
  c.isAlphanum || c == '_'

/-- Lexer mode: between tokens, inside an identifier, inside a string literal. -/
inductive LexMode where
  | idle
  | word (acc : List Char)
  | str (acc : List Char)

/-- One character read between tokens. -/
def idleStep (c : Char) : List Tok × LexMode :=
  if isIdentChar c then ([], LexMode.word [c])
  else if c == '"' then ([], LexMode.str [])
  else if c == ' ' || c == '\t' then ([], LexMode.idle)
  else ([Tok.punct c], LexMode.idle)

/-- One character read in a given mode: the tokens completed and the next mode. -/
def lexStep : LexMode → Char → List Tok × LexMode
  | LexMode.idle, c => idleStep c
  | LexMode.word acc, c =>
      if isIdentChar c then ([], LexMode.word (c :: acc))
      else (Tok.ident (String.mk acc.reverse) :: (idleStep c).1, (idleStep c).2)
  | LexMode.str acc, c =>
      if c == '"' then ([Tok.strLit (String.mk acc.reverse)], LexMode.idle)
      else ([], LexMode.str (c :: acc))

/-- Tokens pending at the end of the line. -/
def lexFlush : LexMode → List Tok
  | LexMode.idle => []
  | LexMode.word acc => [Tok.ident (String.mk acc.reverse)]
  | LexMode.str acc => [Tok.strLit (String.mk acc.reverse)]

/-- Lexes the characters of one line; a `//` outside a string literal starts a
comment that runs to the end of the line. -/
def lexChars : LexMode → List Char → List Tok
  | m, [] => lexFlush m
  | LexMode.str acc, c :: cs =>
      (lexStep (LexMode.str acc) c).1 ++ lexChars (lexStep (LexMode.str acc) c).2 cs
  | m, '/' :: '/' :: _ => lexFlush m
  | m, c :: cs => (lexStep m c).1 ++ lexChars (lexStep m c).2 cs

/-- Lexes one source line. -/
def lexLine (s : String) : List Tok :=
  lexChars LexMode.idle s.data

/-- Classifies a lexed line.  The directives are the ones the header uses; any
other directive is not accepted. -/
def classify : List Tok → Option Line
  | [Tok.punct '#', Tok.ident "ifndef", Tok.ident m] => some (Line.ifndef m)
  | [Tok.punct '#', Tok.ident "ifdef", Tok.ident m] => some (Line.ifdef m)
  | [Tok.punct '#', Tok.ident "define", Tok.ident m] => some (Line.define m)
  | [Tok.punct '#', Tok.ident "include", Tok.strLit p] => some (Line.incl p)
  | [Tok.punct '#', Tok.ident "endif"] => some Line.endif
  | Tok.punct '#' :: _ => none
  | toks => some (Line.text toks)

/-- Lexes and classifies every line of a file. -/
def parseFile : List String → Option (List Line)
  | [] => some []
  | l :: ls =>
      match classify (lexLine l), parseFile ls with
      | some x, some xs => some (x :: xs)
      | _, _ => none

/-- The classified lines of `fonts.h`, as the lexer reads them from the text. -/
def fontsH : List Line :=
  (parseFile fontsSource).getD []

/-! ## Macro replacement -/

/-- The replacement list a macro table gives to a name; the first definition
of the name is the one in force. -/
def lookup : List (String × List Tok) → String → Option (List Tok)
  | [], _ => none
  | (n, body) :: rest, m => if n = m then some body else lookup rest m

/-- Whether a name is defined as a macro. -/
def isDefined (st : List (String × List Tok)) (m : String) : Bool :=
  (lookup st m).isSome

/-- Replaces every token by a list of tokens, in order. -/
def concatMap (f : Tok → List Tok) : List Tok → List Tok
  | [] => []
  | t :: ts => f t ++ concatMap f ts

/-- The table without the definitions of the name `x`. -/
def disable (st : List (String × List Tok)) (x : String) : List (String × List Tok) :=
  st.filter (fun e => !(e.1 == x))

/-- Macro replacement of one token.  An identifier that names a macro is
replaced by the macro's replacement list, which is rescanned with that macro
disabled; any other token stays.  `fuel` bounds the nesting of replacements:
every level disables a macro of the table, so a fuel above the length of the
table is never used up (`expandTok_fuel`). -/
def expandTok : Nat → List (String × List Tok) → Tok → List Tok
  | fuel + 1, st, Tok.ident x =>
      match lookup st x with
      | some body => concatMap (expandTok fuel (disable st x)) body
      | none => [Tok.ident x]
  | _, _, t => [t]

/-- Macro replacement of a line of text. -/
def expandLine (st : List (String × List Tok)) (toks : List Tok) : List Tok :=
  concatMap (expandTok (st.length + 1) st) toks

/-- The identifiers among some tokens. -/
def identsOf : List Tok → List String
  | [] => []
  | Tok.ident x :: rest => x :: identsOf rest
  | _ :: rest => identsOf rest

/-- The identifiers that occur in the text lines of a file. -/
def textIdents : List Line → List String
  | [] => []
  | Line.text toks :: rest => identsOf toks ++ textIdents rest
  | _ :: rest => textIdents rest

/-- No identifier of the text lines of the file is defined as a macro. -/
def noTextMacro (file : List Line) (st : List (String × List Tok)) : Bool :=
  (textIdents file).all (fun x => !isDefined st x)

/-! ## Preprocessing a file -/

/-- What a header leaves in the translation unit, line by line: the inclusion
of another file, or a line of tokens. -/
inductive Item where
  | included (path : String)
  | tokens (toks : List Tok)
  deriving DecidableEq, Repr

/-- Ways in which preprocessing a file stops with a diagnostic. -/
inductive PPError where
  | endifWithoutIf
  | unterminatedConditional
  | macroRedefined
  deriving DecidableEq, Repr

/-- State of the preprocessor inside a file: the macro table, the open
conditional groups (innermost first, `true` when the group's condition holds)
and the lines emitted so far. -/
structure PState where
  macros : List (String × List Tok)
  conds : List Bool
  out : List Item
  deriving DecidableEq, Repr

/-- A line is processed when every enclosing conditional group holds. -/
def PState.active (s : PState) : Bool :=
  s.conds.all id

/-- The name of the include guard of `fonts.h`. -/
def guardMacro : String := "FONTS_QUICKSAND_256_H"

/-- The macro a C++ translation unit has predefined. -/
def cplusplusMacro : String := "__cplusplus"

/-- A line of text after macro replacement, as an emitted item; a line left
without tokens emits nothing. -/
def emitLine (toks : List Tok) : List Item :=
  if toks.isEmpty then [] else [Item.tokens toks]

/-- Processes one line.  `#define m` defines `m` with an empty replacement
list; defining again a macro whose replacement list is not empty is
diagnosed. -/
def step (s : PState) : Line → Except PPError PState
  | Line.ifndef m => Except.ok { s with conds := (!isDefined s.macros m) :: s.conds }
  | Line.ifdef m => Except.ok { s with conds := isDefined s.macros m :: s.conds }
  | Line.endif =>
      match s.conds with
      | [] => Except.error PPError.endifWithoutIf
      | _ :: cs => Except.ok { s with conds := cs }
  | Line.define m =>
      if s.active then
        match lookup s.macros m with
        | none => Except.ok { s with macros := (m, []) :: s.macros }
        | some [] => Except.ok s
        | some (_ :: _) => Except.error PPError.macroRedefined
      else Except.ok s
  | Line.incl p =>
      if s.active then Except.ok { s with out := s.out ++ [Item.included p] } else Except.ok s
  | Line.text toks =>
      if s.active then Except.ok { s with out := s.out ++ emitLine (expandLine s.macros toks) }
      else Except.ok s

/-- Processes the lines of a file in order. -/
def run : PState → List Line → Except PPError PState
  | s, [] => Except.ok s
  | s, l :: ls =>
      match step s l with
      | Except.ok s1 => run s1 ls
      | Except.error e => Except.error e

/-- Includes a file in a translation unit whose macro table is `st`: the
lines the file emits and the macro table afterwards.  Every conditional
group of the file has to be closed in the file. -/
def includeFile (file : List Line) (st : List (String × List Tok)) :
    Except PPError (List Item × List (String × List Tok)) :=
  match run { macros := st, conds := [], out := [] } file with
  | Except.ok s =>
      if s.conds.isEmpty then Except.ok (s.out, s.macros)
      else Except.error PPError.unterminatedConditional
  | Except.error e => Except.error e

/-- Includes a file `n` times in a row, threading the macro table. -/
def includeTimes (file : List Line) : Nat → List (String × List Tok) →
    Except PPError (List Item × List (String × List Tok))
  | 0, st => Except.ok ([], st)
  | n + 1, st =>
      match includeFile file st with
      | Except.ok (o1, st1) =>
          match includeTimes file n st1 with
          | Except.ok (o2, st2) => Except.ok (o1 ++ o2, st2)
          | Except.error e => Except.error e
      | Except.error e => Except.error e

/-! ## Reading the emitted lines -/

/-- A declaration of an object, read from one line: storage class `extern`,
`const` qualifier, type name, declared name, and whether it has an
initializer. -/
structure Decl where
  isExtern : Bool
  isConst : Bool
  type : String
  name : String
  hasInit : Bool
  deriving DecidableEq, Repr

/-- After the type name: further `const` or `extern` specifiers, then the
declared name, then `;` or an initializer that ends in `;`. -/
def parseAfterType (t : String) : Bool → Bool → List Tok → Option Decl
  | isExtern, _, Tok.ident "const" :: rest => parseAfterType t isExtern true rest
  | _, isConst, Tok.ident "extern" :: rest => parseAfterType t true isConst rest
  | isExtern, isConst, [Tok.ident n, Tok.punct ';'] =>
      some { isExtern := isExtern, isConst := isConst, type := t, name := n, hasInit := false }
  | isExtern, isConst, Tok.ident n :: Tok.punct '=' :: rest =>
      if rest.getLast? = some (Tok.punct ';') then
        some { isExtern := isExtern, isConst := isConst, type := t, name := n, hasInit := true }
      else none
  | _, _, _ => none

/-- The declaration specifiers before the type name: `extern` and `const`, in
any order; the first other identifier is the type name. -/
def parseSpecifiers : Bool → Bool → List Tok → Option Decl
  | _, isConst, Tok.ident "extern" :: rest => parseSpecifiers true isConst rest
  | isExtern, _, Tok.ident "const" :: rest => parseSpecifiers isExtern true rest
  | isExtern, isConst, Tok.ident t :: rest => parseAfterType t isExtern isConst rest
  | _, _, _ => none

/-- Reads a line as an object declaration: specifiers `extern` and `const`
around a type name, the declared name, an optional initializer, `;`. -/
def parseDecl (toks : List Tok) : Option Decl :=
  parseSpecifiers false false toks

/-- The declarations among the emitted lines, in order. -/
def declsOf : List Item → List Decl
  | [] => []
  | Item.included _ :: rest => declsOf rest
  | Item.tokens toks :: rest =>
      match parseDecl toks with
      | some d => d :: declsOf rest
      | none => declsOf rest

/-- An `extern` declaration of `name` with type `type`, no qualifier, no
initializer. -/
def externDecl (type name : String) : Decl :=
  { isExtern := true, isConst := false, type := type, name := name, hasInit := false }

/-- The line `extern type name;`. -/
def externLine (type name : String) : Item :=
  Item.tokens [Tok.ident "extern", Tok.ident type, Tok.ident name, Tok.punct ';']

/-- The four declaration lines of the header. -/
def declLines : List Item :=
  [ externLine "lv_font_t" "quicksand_200",
    externLine "lv_font_t" "open_sans_48",
    externLine "lv_font_t" "sf_symbols_48",
    externLine "lv_img_dsc_t" "cursor" ]

/-- The line that opens the C linkage block. -/
def linkageOpen : Item :=
  Item.tokens [Tok.ident "extern", Tok.strLit "C", Tok.punct '\x7b']

/-- The line that closes the C linkage block. -/
def linkageClose : Item :=
  Item.tokens [Tok.punct '\x7d']

/-- The names the header declares, in source order. -/
def fourSymbols : List String :=
  ["quicksand_200", "open_sans_48", "sf_symbols_48", "cursor"]

/-- The four declarations of the header, in source order. -/
def fourDecls : List Decl :=
  [ externDecl "lv_font_t" "quicksand_200",
    externDecl "lv_font_t" "open_sans_48",
    externDecl "lv_font_t" "sf_symbols_48",
    externDecl "lv_img_dsc_t" "cursor" ]

/-- The type a list of declarations gives to a name, if it declares it. -/
def typeOf (ds : List Decl) (n : String) : Option String :=
  match ds.find? (fun d => d.name == n) with
  | some d => some d.type
  | none => none

/-! ## Braces and language linkage -/

/-- Brace depth after a run of tokens; `none` when a `}` closes nothing. -/
def braceDepth : Nat → List Tok → Option Nat
  | d, [] => some d
  | d, Tok.punct '\x7b' :: rest => braceDepth (d + 1) rest
  | 0, Tok.punct '\x7d' :: _ => none
  | d + 1, Tok.punct '\x7d' :: rest => braceDepth d rest
  | d, _ :: rest => braceDepth d rest

/-- All tokens of the emitted lines, in order. -/
def tokensOf : List Item → List Tok
  | [] => []
  | Item.included _ :: rest => tokensOf rest
  | Item.tokens toks :: rest => toks ++ tokensOf rest

/-- Every `\x7b` of the emitted text has its `\x7d` and conversely. -/
def bracesMatched (out : List Item) : Bool :=
  braceDepth 0 (tokensOf out) == some 0

/-- Language of a translation unit, and language linkage of a name. -/
inductive Lang where
  | c
  | cpp
  deriving DecidableEq, Repr

/-- A translation unit is C++ exactly when `__cplusplus` is defined. -/
def unitLang (st : List (String × List Tok)) : Lang :=
  if isDefined st cplusplusMacro then Lang.cpp else Lang.c

/-- The language linkage of each declared name.  `blocks` are the open linkage
blocks, innermost first; outside every block a name has the linkage of the
unit's language.  A linkage block is C++ syntax: in a C unit it is rejected, as
is a `\x7d` that closes no block, and a block left open. -/
def linkagesFrom (unit : Lang) : List Lang → List Item → Option (List (String × Lang))
  | [], [] => some []
  | _ :: _, [] => none
  | blocks, Item.included _ :: rest => linkagesFrom unit blocks rest
  | blocks, Item.tokens toks :: rest =>
      if toks = [Tok.ident "extern", Tok.strLit "C", Tok.punct '\x7b'] then
        match unit with
        | Lang.cpp => linkagesFrom unit (Lang.c :: blocks) rest
        | Lang.c => none
      else if toks = [Tok.punct '\x7d'] then
        match blocks with
        | [] => none
        | _ :: outer => linkagesFrom unit outer rest
      else
        match parseDecl toks with
        | some d =>
            match linkagesFrom unit blocks rest with
            | some r => some ((d.name, blocks.headD unit) :: r)
            | none => none
        | none => linkagesFrom unit blocks rest

/-- The language linkage of each name declared by the emitted lines. -/
def linkages (unit : Lang) (out : List Item) : Option (List (String × Lang)) :=
  linkagesFrom unit [] out

/-! ## Definitions and linking -/

/-- A declaration is a definition when it has an initializer or no `extern`. -/
def Decl.isDefinition (d : Decl) : Bool :=
  d.hasInit || !d.isExtern

/-- The definitions among the declarations of a unit. -/
def definitionsOf (u : List Decl) : List Decl :=
  u.filter Decl.isDefinition

/-- Whether a unit defines the symbol `s`. -/
def definesSym (u : List Decl) (s : String) : Bool :=
  u.any (fun d => d.isDefinition && d.name == s)

/-- Number of the linked units that define the symbol `s`. -/
def defCount : List (List Decl) → String → Nat
  | [], _ => 0
  | u :: us, s => (if definesSym u s then 1 else 0) + defCount us s

/-- Every name defined in some unit. -/
def definedSyms : List (List Decl) → List String
  | [] => []
  | u :: us => (definitionsOf u).map Decl.name ++ definedSyms us

/-- Referenced symbols that no unit defines. -/
def missingSyms (refs : List String) (units : List (List Decl)) : List String :=
  refs.filter (fun s => defCount units s == 0)

/-- Symbols that more than one unit defines. -/
def duplicateSyms (units : List (List Decl)) : List String :=
  (definedSyms units).filter (fun s => decide (2 ≤ defCount units s))

/-- The link of some units, of which the names `refs` are referenced,
succeeds when no referenced symbol is missing and no symbol is duplicated. -/
def linkOk (refs : List String) (units : List (List Decl)) : Bool :=
  (missingSyms refs units).isEmpty && (duplicateSyms units).isEmpty

/-- A unit that defines the four assets with initializers. -/
def assetUnit : List Decl :=
  [ { isExtern := false, isConst := false, type := "lv_font_t", name := "quicksand_200", hasInit := true },
    { isExtern := false, isConst := false, type := "lv_font_t", name := "open_sans_48", hasInit := true },
    { isExtern := false, isConst := false, type := "lv_font_t", name := "sf_symbols_48", hasInit := true },
    { isExtern := false, isConst := false, type := "lv_img_dsc_t", name := "cursor", hasInit := true } ]

/-! ## Writes through a declaration -/

/-- What the definition of a type name, which the graphics library owns, says
about assignability. -/
structure TypeInfo where
  isArray : Bool
  isComplete : Bool
  isConst : Bool
  hasConstMember : Bool
  deriving DecidableEq, Repr

/-- A complete structure type without any `const`. -/
def plainStruct : TypeInfo :=
  { isArray := false, isComplete := true, isConst := false, hasConstMember := false }

/-- The object a declaration names is a modifiable lvalue: its type is not an
array type, not incomplete, not `const`-qualified (by the declaration or by the
type's definition) and has no `const`-qualified member. -/
def Decl.modifiable (types : String → TypeInfo) (d : Decl) : Bool :=
  !d.isConst && !(types d.type).isArray && (types d.type).isComplete &&
    !(types d.type).isConst && !(types d.type).hasConstMember

/-! ## Macro tables used as concrete inputs -/

/-- A table that defines `quicksand_200` as `renamed_font`. -/
def renamingTable : List (String × List Tok) :=
  [("quicksand_200", [Tok.ident "renamed_font"])]

/-- A table that defines `extern` with an empty replacement list. -/
def noExternTable : List (String × List Tok) :=
  [("extern", [])]

/-- A table that defines `lv_font_t` as `lv_img_dsc_t`. -/
def retypingTable : List (String × List Tok) :=
  [("lv_font_t", [Tok.ident "lv_img_dsc_t"])]

/-- The table of a C++ unit in which `cursor` is defined as `pointer`. -/
def cppRenamingTable : List (String × List Tok) :=
  [("__cplusplus", [Tok.ident "201703L"]), ("cursor", [Tok.ident "pointer"])]

/-- The table of a C++ unit with no other macro. -/
def cppTable : List (String × List Tok) :=
  [("__cplusplus", [Tok.ident "201703L"])]

/-! ## The header, classified -/

/-- Lexing and classifying the text of `fonts.h` gives these eighteen lines. -/
theorem fontsH_eq :
    fontsH =
      [ Line.ifndef "FONTS_QUICKSAND_256_H",
        Line.define "FONTS_QUICKSAND_256_H",
        Line.text [],
        Line.incl "lvgl/lvgl.h",
        Line.text [],
        Line.ifdef "__cplusplus",
        Line.text [Tok.ident "extern", Tok.strLit "C", Tok.punct '\x7b'],
        Line.endif,
        Line.text [],
        Line.text [Tok.ident "extern", Tok.ident "lv_font_t", Tok.ident "quicksand_200", Tok.punct ';'],
        Line.text [Tok.ident "extern", Tok.ident "lv_font_t", Tok.ident "open_sans_48", Tok.punct ';'],
        Line.text [Tok.ident "extern", Tok.ident "lv_font_t", Tok.ident "sf_symbols_48", Tok.punct ';'],
        Line.text [Tok.ident "extern", Tok.ident "lv_img_dsc_t", Tok.ident "cursor", Tok.punct ';'],
        Line.text [],
        Line.ifdef "__cplusplus",
        Line.text [Tok.punct '\x7d'],
        Line.endif,
        Line.endif ] := by
  decide

/-- The identifiers of the text lines of `fonts.h`. -/
theorem textIdents_fontsH :
    textIdents fontsH =
      [ "extern", "extern", "lv_font_t", "quicksand_200", "extern", "lv_font_t",
        "open_sans_48", "extern", "lv_font_t", "sf_symbols_48", "extern",
        "lv_img_dsc_t", "cursor" ] := by
  rw [fontsH_eq]; rfl

/-- Disabling a macro that is defined makes the table shorter. -/
theorem disable_length (st : List (String × List Tok)) (x : String) (body : List Tok)
    (h : lookup st x = some body) : (disable st x).length < st.length := by
  induction st with
  | nil => simp [lookup] at h
  | cons e rest ih =>
    obtain ⟨n, b⟩ := e
    by_cases hn : n = x
    · have hle : (List.filter (fun e => !(e.1 == x)) rest).length ≤ rest.length :=
        List.length_filter_le _ _
      simp only [disable, List.filter_cons, hn, beq_self_eq_true, Bool.not_true,
        Bool.false_eq_true, if_false, List.length_cons]
      omega
    · have hl : lookup rest x = some body := by simpa [lookup, hn] using h
      have hlt := ih hl
      simp only [disable, List.filter_cons] at hlt ⊢
      split
      · simp only [List.length_cons]
        omega
      · rename_i hcon
        simp [hn] at hcon

/-- Replacing token by token with two functions that agree gives the same. -/
theorem concatMap_congr (f g : Tok → List Tok) (toks : List Tok) (h : ∀ t, f t = g t) :
    concatMap f toks = concatMap g toks := by
  induction toks with
  | nil => rfl
  | cons t ts ih => simp [concatMap, h t, ih]

/-- Any two fuels above the length of the table give the same replacement:
the fuel of `expandLine` is never used up. -/
theorem expandTok_fuel (f1 : Nat) :
    ∀ (f2 : Nat) (st : List (String × List Tok)) (t : Tok),
      st.length < f1 → st.length < f2 → expandTok f1 st t = expandTok f2 st t := by
  induction f1 with
  | zero => intro f2 st t h1; omega
  | succ k ih =>
    intro f2 st t h1 h2
    cases f2 with
    | zero => omega
    | succ m =>
      cases t with
      | ident x =>
        cases hl : lookup st x with
        | none => simp [expandTok, hl]
        | some body =>
          have hlen := disable_length st x body hl
          simp only [expandTok, hl]
          exact concatMap_congr _ _ body
            (fun t => ih m (disable st x) t (by omega) (by omega))
      | strLit s => simp [expandTok]
      | punct c => simp [expandTok]

/-- A name that is not defined has no replacement list. -/
theorem lookup_undefined (st : List (String × List Tok)) (m : String)
    (h : isDefined st m = false) : lookup st m = none := by
  unfold isDefined at h
  cases hl : lookup st m with
  | none => rfl
  | some b => rw [hl] at h; exact absurd h (by simp)

/-- When no identifier of the text lines is a macro, none of the seven
identifiers the header writes has a replacement list. -/
theorem clean_lookups (st : List (String × List Tok)) (h : noTextMacro fontsH st = true) :
    lookup st "extern" = none ∧ lookup st "lv_font_t" = none ∧
    lookup st "lv_img_dsc_t" = none ∧ lookup st "quicksand_200" = none ∧
    lookup st "open_sans_48" = none ∧ lookup st "sf_symbols_48" = none ∧
    lookup st "cursor" = none := by
  rw [noTextMacro, textIdents_fontsH] at h
  simp only [List.all_cons, List.all_nil, Bool.and_true, Bool.and_eq_true,
    Bool.not_eq_true'] at h
  obtain ⟨h1, -, h2, h3, -, -, h4, -, -, h5, -, h6, h7⟩ := h
  exact ⟨lookup_undefined st _ h1, lookup_undefined st _ h2, lookup_undefined st _ h6,
    lookup_undefined st _ h3, lookup_undefined st _ h4, lookup_undefined st _ h5,
    lookup_undefined st _ h7⟩

/-- With the guard defined the header emits nothing and changes nothing. -/
theorem includeFile_guarded (st : List (String × List Tok))
    (h : isDefined st guardMacro = true) :
    includeFile fontsH st = Except.ok ([], st) := by
  have hg : isDefined st "FONTS_QUICKSAND_256_H" = true := h
  rw [fontsH_eq]
  simp [includeFile, run, step, PState.active, hg]

/-- With the guard undefined the header succeeds and defines the guard with
an empty replacement list, whatever else the table defines. -/
theorem includeFile_fresh_state (st : List (String × List Tok))
    (h : isDefined st guardMacro = false) :
    ∃ out, includeFile fontsH st = Except.ok (out, (guardMacro, []) :: st) := by
  have hg : isDefined st "FONTS_QUICKSAND_256_H" = false := h
  have hl : lookup st "FONTS_QUICKSAND_256_H" = none := lookup_undefined st _ hg
  rw [fontsH_eq]
  cases hc : isDefined ((guardMacro, []) :: st) "__cplusplus" <;>
    simp [includeFile, run, step, PState.active, hg, hl, hc, guardMacro] <;>
    simp [guardMacro] at hc <;> simp [hc]

/-- With the guard undefined and no identifier of the text lines a macro, the
header emits the inclusion of `lvgl/lvgl.h` and the four declaration lines as
written, wrapped in the linkage block when `__cplusplus` is defined, and
defines the guard. -/
theorem includeFile_fresh (st : List (String × List Tok))
    (h : isDefined st guardMacro = false) (hc : noTextMacro fontsH st = true) :
    includeFile fontsH st =
      Except.ok
        (if isDefined st cplusplusMacro then
            [Item.included "lvgl/lvgl.h", linkageOpen] ++ declLines ++ [linkageClose]
          else Item.included "lvgl/lvgl.h" :: declLines,
         (guardMacro, []) :: st) := by
  have hg : isDefined st "FONTS_QUICKSAND_256_H" = false := h
  have hl : lookup st "FONTS_QUICKSAND_256_H" = none := lookup_undefined st _ hg
  obtain ⟨h1, h2, h3, h4, h5, h6, h7⟩ := clean_lookups st hc
  rw [fontsH_eq]
  cases hcpp : lookup st "__cplusplus" <;>
    simp [includeFile, run, step, PState.active, hl, hcpp, guardMacro, cplusplusMacro,
      isDefined, lookup, expandLine, expandTok, concatMap, emitLine, declLines, linkageOpen,
      linkageClose, externLine, h1, h2, h3, h4, h5, h6, h7]

/-- The lines emitted by a first inclusion declare the four symbols, whether
or not `__cplusplus` is defined. -/
theorem declsOf_fresh (st : List (String × List Tok)) :
    declsOf (if isDefined st cplusplusMacro then
        [Item.included "lvgl/lvgl.h", linkageOpen] ++ declLines ++ [linkageClose]
      else Item.included "lvgl/lvgl.h" :: declLines) = fourDecls := by
  cases hc : isDefined st cplusplusMacro
  · rw [if_neg (by simp)]; decide
  · rw [if_pos rfl]; decide

/-- Once the guard is defined, any number of inclusions emits nothing. -/
theorem includeTimes_guarded (n : Nat) (st : List (String × List Tok))
    (h : isDefined st guardMacro = true) :
    includeTimes fontsH n st = Except.ok ([], st) := by
  induction n with
  | zero => rfl
  | succ k ih => simp [includeTimes, includeFile_guarded st h, ih]

/-- The guard is defined in a table that starts with its definition. -/
theorem guard_defined_after (st : List (String × List Tok)) :
    isDefined ((guardMacro, []) :: st) guardMacro = true := by
  simp [isDefined, lookup]

/-- When no identifier of the text lines is a macro, any number of inclusions
succeeds, and the declarations it leaves are either none or the four
declarations of the header, once. -/
theorem includeTimes_decls (n : Nat) (st : List (String × List Tok))
    (hc : noTextMacro fontsH st = true) :
    ∃ out st1, includeTimes fontsH n st = Except.ok (out, st1) ∧
      (declsOf out = [] ∨ declsOf out = fourDecls) := by
  cases n with
  | zero => exact ⟨[], st, rfl, Or.inl rfl⟩
  | succ k =>
    cases h : isDefined st guardMacro
    · refine ⟨_, (guardMacro, []) :: st, ?_, Or.inr (declsOf_fresh st)⟩
      simp [includeTimes, includeFile_fresh st h hc,
        includeTimes_guarded k _ (guard_defined_after st)]
    · exact ⟨[], st, includeTimes_guarded (k + 1) st h, Or.inl rfl⟩

/-- A unit that defines nothing adds nothing to the count of definitions. -/
theorem defCount_consumer (c U : List Decl) (s : String) (hc : definesSym c s = false) :
    defCount [c, U] s = if definesSym U s then 1 else 0 := by
  simp [defCount, hc]

/-- The declarations a consumer gets from the header define no symbol. -/
theorem consumer_defines_nothing (c : List Decl) (hc : c = [] ∨ c = fourDecls) (s : String) :
    definesSym c s = false := by
  rcases hc with hc | hc
  · subst hc; rfl
  · subst hc
    simp [definesSym, fourDecls, externDecl, Decl.isDefinition]

/-- Every line a first inclusion emits as written is the inclusion of
`lvgl/lvgl.h`, a line of the linkage wrapper or one of the four declarations. -/
theorem consumer_lines (st : List (String × List Tok)) :
    ∀ it ∈ (if isDefined st cplusplusMacro then
        [Item.included "lvgl/lvgl.h", linkageOpen] ++ declLines ++ [linkageClose]
      else Item.included "lvgl/lvgl.h" :: declLines),
      it = Item.included "lvgl/lvgl.h" ∨ it = linkageOpen ∨ it = linkageClose ∨
        it ∈ declLines := by
  intro it hit
  cases hc : isDefined st cplusplusMacro
  · rw [hc, if_neg (by simp)] at hit
    simp only [List.mem_cons] at hit
    tauto
  · rw [hc, if_pos rfl] at hit
    simp only [List.mem_append, List.mem_cons, List.mem_singleton, List.not_mem_nil,
      or_false] at hit
    tauto

/-! ## The claims -/

/-- C1 as stated fails: in the macro state that defines `quicksand_200` as
`renamed_font`, where the guard is not defined, including `fonts.h` declares
`renamed_font` and does not declare `quicksand_200`. -/
theorem C1_renamed_counterexample :
    isDefined renamingTable guardMacro = false ∧
    ∃ out st1, includeFile fontsH renamingTable = Except.ok (out, st1) ∧
      declsOf out =
        [ externDecl "lv_font_t" "renamed_font",
          externDecl "lv_font_t" "open_sans_48",
          externDecl "lv_font_t" "sf_symbols_48",
          externDecl "lv_img_dsc_t" "cursor" ] ∧
      "quicksand_200" ∉ (declsOf out).map Decl.name ∧
      (declsOf out).map Decl.name ≠ fourSymbols := by
  refine ⟨by decide,
    [ Item.included "lvgl/lvgl.h", externLine "lv_font_t" "renamed_font",
      externLine "lv_font_t" "open_sans_48", externLine "lv_font_t" "sf_symbols_48",
      externLine "lv_img_dsc_t" "cursor" ],
    (guardMacro, []) :: renamingTable, ?_, by decide, by decide, by decide⟩
  rw [fontsH_eq]; rfl

/-- C1 amended: in every macro state where `FONTS_QUICKSAND_256_H` is not
defined and no identifier of the header's text lines is defined as a macro,
including `fonts.h` succeeds and declares exactly `quicksand_200`,
`open_sans_48`, `sf_symbols_48` of type `lv_font_t` and `cursor` of type
`lv_img_dsc_t`, in that order; every line of tokens it emits is one of these
four declarations or a line of the linkage wrapper. -/
theorem C1_declares_exactly_four (st : List (String × List Tok))
    (h : isDefined st guardMacro = false) (hc : noTextMacro fontsH st = true) :
    ∃ out st1, includeFile fontsH st = Except.ok (out, st1) ∧
      declsOf out =
        [ externDecl "lv_font_t" "quicksand_200",
          externDecl "lv_font_t" "open_sans_48",
          externDecl "lv_font_t" "sf_symbols_48",
          externDecl "lv_img_dsc_t" "cursor" ] ∧
      (declsOf out).map Decl.name = fourSymbols ∧
      (declsOf out).length = 4 ∧
      ∀ it ∈ out, it = Item.included "lvgl/lvgl.h" ∨ it = linkageOpen ∨
        it = linkageClose ∨ it ∈ declLines := by
  refine ⟨_, _, includeFile_fresh st h hc, ?_, ?_, ?_, consumer_lines st⟩
  · exact declsOf_fresh st
  · rw [declsOf_fresh st]; decide
  · rw [declsOf_fresh st]; decide

/-- Witness of the amended C1 at the empty macro state. -/
theorem C1_declares_exactly_four_witness :
    isDefined [] guardMacro = false ∧ noTextMacro fontsH [] = true ∧
    ∃ out st1, includeFile fontsH [] = Except.ok (out, st1) ∧
      declsOf out =
        [ externDecl "lv_font_t" "quicksand_200",
          externDecl "lv_font_t" "open_sans_48",
          externDecl "lv_font_t" "sf_symbols_48",
          externDecl "lv_img_dsc_t" "cursor" ] ∧
      (declsOf out).map Decl.name = fourSymbols ∧
      (declsOf out).length = 4 ∧
      ∀ it ∈ out, it = Item.included "lvgl/lvgl.h" ∨ it = linkageOpen ∨
        it = linkageClose ∨ it ∈ declLines :=
  ⟨by decide, by decide, C1_declares_exactly_four [] (by decide) (by decide)⟩

/-- C2: from every macro state, including `fonts.h` twice in a row gives the
same emitted lines and the same macro state as including it once; the second
inclusion emits no line, so it declares nothing, and leaves the macros as they
are. -/
theorem C2_include_idempotent (st : List (String × List Tok)) :
    includeTimes fontsH 2 st = includeTimes fontsH 1 st ∧
    ∃ out st1, includeFile fontsH st = Except.ok (out, st1) ∧
      includeFile fontsH st1 = Except.ok ([], st1) ∧
      includeTimes fontsH 2 st = Except.ok (out, st1) := by
  cases h : isDefined st guardMacro
  · obtain ⟨out, ho⟩ := includeFile_fresh_state st h
    have hg := guard_defined_after st
    refine ⟨?_, out, _, ho, includeFile_guarded _ hg, ?_⟩
    · simp [includeTimes, ho, includeFile_guarded _ hg]
    · simp [includeTimes, ho, includeFile_guarded _ hg]
  · refine ⟨?_, [], st, includeFile_guarded st h, includeFile_guarded st h, ?_⟩
    · rw [includeTimes_guarded 2 st h, includeTimes_guarded 1 st h]
    · exact includeTimes_guarded 2 st h

/-- C7: in every macro state where `FONTS_QUICKSAND_256_H` is already defined,
including `fonts.h` succeeds, emits no line at all (no declaration, no linkage
wrapper, no inclusion of `lvgl/lvgl.h`) and returns the macro state it was
given. -/
theorem C7_guarded_include_emits_nothing (st : List (String × List Tok))
    (h : isDefined st guardMacro = true) :
    includeFile fontsH st = Except.ok ([], st) ∧
    ∀ out st1, includeFile fontsH st = Except.ok (out, st1) →
      st1 = st ∧ declsOf out = [] ∧ linkageOpen ∉ out ∧ linkageClose ∉ out ∧
      Item.included "lvgl/lvgl.h" ∉ out ∧ ∀ d ∈ declLines, d ∉ out := by
  refine ⟨includeFile_guarded st h, ?_⟩
  intro out st1 ho
  rw [includeFile_guarded st h] at ho
  injection ho with ho
  injection ho with ho1 ho2
  subst ho1 ho2
  simp [declsOf]

/-- Witness of C7 at a state where only the guard is defined. -/
theorem C7_guarded_include_emits_nothing_witness :
    isDefined [("FONTS_QUICKSAND_256_H", [])] guardMacro = true ∧
    includeFile fontsH [("FONTS_QUICKSAND_256_H", [])] =
      Except.ok ([], [("FONTS_QUICKSAND_256_H", [])]) :=
  ⟨by decide,
    (C7_guarded_include_emits_nothing [("FONTS_QUICKSAND_256_H", [])] (by decide)).1⟩

/-- C3 as stated fails: in the macro state that defines `extern` with an empty
replacement list, a unit that includes `fonts.h` once gets the four lines
without `extern`, which are four definitions; linked with a unit that defines
the four assets, each of the four symbols is defined twice. -/
theorem C3_definitions_counterexample :
    ∃ out st1, includeTimes fontsH 1 noExternTable = Except.ok (out, st1) ∧
      (definitionsOf (declsOf out)).map Decl.name = fourSymbols ∧
      definitionsOf (declsOf out) ≠ [] ∧
      (∀ s ∈ fourSymbols, defCount [declsOf out, assetUnit] s = 2) ∧
      duplicateSyms [declsOf out, assetUnit] ≠ [] ∧
      linkOk fourSymbols [declsOf out, assetUnit] = false := by
  refine ⟨
    [ Item.included "lvgl/lvgl.h",
      Item.tokens [Tok.ident "lv_font_t", Tok.ident "quicksand_200", Tok.punct ';'],
      Item.tokens [Tok.ident "lv_font_t", Tok.ident "open_sans_48", Tok.punct ';'],
      Item.tokens [Tok.ident "lv_font_t", Tok.ident "sf_symbols_48", Tok.punct ';'],
      Item.tokens [Tok.ident "lv_img_dsc_t", Tok.ident "cursor", Tok.punct ';'] ],
    (guardMacro, []) :: noExternTable, ?_, by decide, by decide, by decide, by decide,
    by decide⟩
  rw [fontsH_eq]; rfl

/-- C3 amended: in every macro state where no identifier of the header's text
lines is defined as a macro, a unit that only includes `fonts.h`, any number
of times, gets declarations that are all `extern` without initializer and so
contributes no definition of any symbol; linked with a unit that defines each
of the four symbols, every one of the four symbols has exactly one
definition, no referenced symbol among the four is missing and no symbol is
duplicated. -/
theorem C3_header_defines_nothing (n : Nat) (st : List (String × List Tok))
    (U : List Decl) (refs : List String)
    (hc : noTextMacro fontsH st = true)
    (hU : ∀ s ∈ fourSymbols, definesSym U s = true)
    (hrefs : ∀ s ∈ refs, s ∈ fourSymbols) :
    ∃ out st1, includeTimes fontsH n st = Except.ok (out, st1) ∧
      (∀ d ∈ declsOf out, d.isExtern = true ∧ d.hasInit = false) ∧
      definitionsOf (declsOf out) = [] ∧
      (∀ s, definesSym (declsOf out) s = false) ∧
      (∀ s ∈ fourSymbols, defCount [declsOf out, U] s = 1) ∧
      missingSyms refs [declsOf out, U] = [] ∧
      duplicateSyms [declsOf out, U] = [] ∧
      linkOk refs [declsOf out, U] = true := by
  obtain ⟨out, st1, hrun, hd⟩ := includeTimes_decls n st hc
  have hnone := consumer_defines_nothing (declsOf out) hd
  have hcount : ∀ s, defCount [declsOf out, U] s = if definesSym U s then 1 else 0 :=
    fun s => defCount_consumer (declsOf out) U s (hnone s)
  have hmiss : missingSyms refs [declsOf out, U] = [] := by
    apply List.filter_eq_nil_iff.mpr
    intro s hs
    rw [hcount s, hU s (hrefs s hs)]
    decide
  have hdup : duplicateSyms [declsOf out, U] = [] := by
    apply List.filter_eq_nil_iff.mpr
    intro s _
    rw [hcount s]
    cases definesSym U s <;> decide
  refine ⟨out, st1, hrun, ?_, ?_, hnone, ?_, hmiss, hdup, ?_⟩
  · intro d hmem
    rcases hd with hd | hd
    · rw [hd] at hmem; simp at hmem
    · rw [hd] at hmem
      simp only [fourDecls, List.mem_cons, List.mem_singleton, List.not_mem_nil,
        or_false] at hmem
      rcases hmem with hmem | hmem | hmem | hmem <;> subst hmem <;> exact ⟨rfl, rfl⟩
  · rcases hd with hd | hd <;> rw [hd] <;> rfl
  · intro s hs
    rw [hcount s, hU s hs]
    rfl
  · simp [linkOk, hmiss, hdup]

/-- Witness of the amended C3: the header included twice from the empty macro
state, linked with a unit that defines the four assets, all four referenced. -/
theorem C3_header_defines_nothing_witness :
    noTextMacro fontsH [] = true ∧
    (∀ s ∈ fourSymbols, definesSym assetUnit s = true) ∧
    (∀ s ∈ fourSymbols, s ∈ fourSymbols) ∧
    ∃ out st1, includeTimes fontsH 2 [] = Except.ok (out, st1) ∧
      (∀ d ∈ declsOf out, d.isExtern = true ∧ d.hasInit = false) ∧
      definitionsOf (declsOf out) = [] ∧
      (∀ s, definesSym (declsOf out) s = false) ∧
      (∀ s ∈ fourSymbols, defCount [declsOf out, assetUnit] s = 1) ∧
      missingSyms fourSymbols [declsOf out, assetUnit] = [] ∧
      duplicateSyms [declsOf out, assetUnit] = [] ∧
      linkOk fourSymbols [declsOf out, assetUnit] = true :=
  ⟨by decide, by decide, fun _ hs => hs,
    C3_header_defines_nothing 2 [] assetUnit fourSymbols (by decide) (by decide)
      (fun _ hs => hs)⟩

/-- C4 as stated fails: the guard is undefined in the empty macro state and in
the state that defines `lv_font_t` as `lv_img_dsc_t`, yet including `fonts.h`
gives `quicksand_200` the type `lv_font_t` in the first and `lv_img_dsc_t` in
the second. -/
theorem C4_retyped_counterexample :
    isDefined [] guardMacro = false ∧ isDefined retypingTable guardMacro = false ∧
    ∃ out1 s1 out2 s2,
      includeFile fontsH [] = Except.ok (out1, s1) ∧
      includeFile fontsH retypingTable = Except.ok (out2, s2) ∧
      typeOf (declsOf out1) "quicksand_200" = some "lv_font_t" ∧
      typeOf (declsOf out2) "quicksand_200" = some "lv_img_dsc_t" ∧
      declsOf out1 ≠ declsOf out2 := by
  refine ⟨by decide, by decide,
    Item.included "lvgl/lvgl.h" :: declLines, (guardMacro, []) :: [],
    [ Item.included "lvgl/lvgl.h", externLine "lv_img_dsc_t" "quicksand_200",
      externLine "lv_img_dsc_t" "open_sans_48", externLine "lv_img_dsc_t" "sf_symbols_48",
      externLine "lv_img_dsc_t" "cursor" ],
    (guardMacro, []) :: retypingTable, ?_, ?_, by decide, by decide, by decide⟩
  · rw [fontsH_eq]; rfl
  · rw [fontsH_eq]; rfl

/-- C4 amended: for any two macro states in which the guard is undefined and no
identifier of the header's text lines is defined as a macro (`__cplusplus`
may be defined or not), including `fonts.h` declares the same names with the
same types: the declarations, and the type looked up for any name, are
equal. -/
theorem C4_types_independent_of_macros (st1 st2 : List (String × List Tok))
    (h1 : isDefined st1 guardMacro = false) (h2 : isDefined st2 guardMacro = false)
    (hc1 : noTextMacro fontsH st1 = true) (hc2 : noTextMacro fontsH st2 = true) :
    ∃ out1 s1 out2 s2,
      includeFile fontsH st1 = Except.ok (out1, s1) ∧
      includeFile fontsH st2 = Except.ok (out2, s2) ∧
      declsOf out1 = declsOf out2 ∧
      (∀ n, typeOf (declsOf out1) n = typeOf (declsOf out2) n) ∧
      (declsOf out1).map (fun d => (d.name, d.type)) =
        [ ("quicksand_200", "lv_font_t"), ("open_sans_48", "lv_font_t"),
          ("sf_symbols_48", "lv_font_t"), ("cursor", "lv_img_dsc_t") ] := by
  refine ⟨_, _, _, _, includeFile_fresh st1 h1 hc1, includeFile_fresh st2 h2 hc2, ?_, ?_, ?_⟩
  · rw [declsOf_fresh st1, declsOf_fresh st2]
  · intro n
    rw [declsOf_fresh st1, declsOf_fresh st2]
  · rw [declsOf_fresh st1]; decide

/-- Witness of the amended C4 at a C unit and a C++ unit. -/
theorem C4_types_independent_of_macros_witness :
    ∃ out1 s1 out2 s2,
      includeFile fontsH [] = Except.ok (out1, s1) ∧
      includeFile fontsH cppTable = Except.ok (out2, s2) ∧
      declsOf out1 = declsOf out2 ∧
      (∀ n, typeOf (declsOf out1) n = typeOf (declsOf out2) n) ∧
      (declsOf out1).map (fun d => (d.name, d.type)) =
        [ ("quicksand_200", "lv_font_t"), ("open_sans_48", "lv_font_t"),
          ("sf_symbols_48", "lv_font_t"), ("cursor", "lv_img_dsc_t") ] :=
  C4_types_independent_of_macros [] cppTable (by decide) (by decide) (by decide) (by decide)

/-- C5 as stated fails: in the empty macro state, with descriptor types that
the library defines as complete structures without `const`, the object each of
the four declarations of the header names is a modifiable lvalue, so a write
through the declaration of `quicksand_200` is accepted. -/
theorem C5_write_possible_counterexample :
    isDefined [] guardMacro = false ∧
    ∃ out st1, includeFile fontsH [] = Except.ok (out, st1) ∧
      externDecl "lv_font_t" "quicksand_200" ∈ declsOf out ∧
      (externDecl "lv_font_t" "quicksand_200").modifiable (fun _ => plainStruct) = true ∧
      ∀ d ∈ declsOf out, d.modifiable (fun _ => plainStruct) = true := by
  refine ⟨by decide, Item.included "lvgl/lvgl.h" :: declLines, (guardMacro, []) :: [], ?_,
    by decide, by decide, by decide⟩
  rw [fontsH_eq]; rfl

/-- C5 amended: in every macro state where the guard is undefined and no
identifier of the header's text lines is defined as a macro, the four
declarations of the header are `extern`, none is `const`-qualified and none
has an initializer; the header emits no line other than the inclusion, the
linkage wrapper and these four declarations.  The header therefore writes to
none of the assets and its declarations do not forbid a write. -/
theorem C5_declarations_not_const (st : List (String × List Tok))
    (h : isDefined st guardMacro = false) (hc : noTextMacro fontsH st = true) :
    ∃ out st1, includeFile fontsH st = Except.ok (out, st1) ∧
      (declsOf out).map Decl.name = fourSymbols ∧
      (∀ d ∈ declsOf out, d.isExtern = true ∧ d.isConst = false ∧ d.hasInit = false) ∧
      (∀ it ∈ out, it = Item.included "lvgl/lvgl.h" ∨ it = linkageOpen ∨
        it = linkageClose ∨ it ∈ declLines) := by
  refine ⟨_, _, includeFile_fresh st h hc, ?_, ?_, consumer_lines st⟩
  · rw [declsOf_fresh st]; decide
  · rw [declsOf_fresh st]; decide

/-- Witness of the amended C5 at the empty macro state. -/
theorem C5_declarations_not_const_witness :
    isDefined [] guardMacro = false ∧ noTextMacro fontsH [] = true ∧
    ∃ out st1, includeFile fontsH [] = Except.ok (out, st1) ∧
      (declsOf out).map Decl.name = fourSymbols ∧
      (∀ d ∈ declsOf out, d.isExtern = true ∧ d.isConst = false ∧ d.hasInit = false) ∧
      (∀ it ∈ out, it = Item.included "lvgl/lvgl.h" ∨ it = linkageOpen ∨
        it = linkageClose ∨ it ∈ declLines) :=
  ⟨by decide, by decide, C5_declarations_not_const [] (by decide) (by decide)⟩

/-- C6 as stated fails: in the macro state of a C++ unit that defines `cursor`
as `pointer`, where the guard is not defined, the linkage wrapper is emitted
but the lines between its two lines declare `pointer` instead of `cursor`, so
`cursor` is not given C linkage. -/
theorem C6_wrapper_counterexample :
    isDefined cppRenamingTable guardMacro = false ∧
    isDefined cppRenamingTable cplusplusMacro = true ∧
    ∃ out st1, includeFile fontsH cppRenamingTable = Except.ok (out, st1) ∧
      linkageOpen ∈ out ∧ linkageClose ∈ out ∧
      externLine "lv_img_dsc_t" "cursor" ∉ out ∧
      out ≠ [Item.included "lvgl/lvgl.h"] ++ [linkageOpen] ++ declLines ++ [linkageClose] ∧
      linkages (unitLang cppRenamingTable) out =
        some [ ("quicksand_200", Lang.c), ("open_sans_48", Lang.c),
               ("sf_symbols_48", Lang.c), ("pointer", Lang.c) ] := by
  refine ⟨by decide, by decide,
    [ Item.included "lvgl/lvgl.h", linkageOpen, externLine "lv_font_t" "quicksand_200",
      externLine "lv_font_t" "open_sans_48", externLine "lv_font_t" "sf_symbols_48",
      externLine "lv_img_dsc_t" "pointer", linkageClose ],
    (guardMacro, []) :: cppRenamingTable, ?_, by decide, by decide, by decide, by decide,
    by decide⟩
  rw [fontsH_eq]; rfl

/-- C6 amended: with the guard undefined and no identifier of the header's text
lines defined as a macro, the line `extern "C" \x7b` and the line `\x7d` are
each emitted exactly when `__cplusplus` is defined; when it is, the four
declarations are the lines between them; when it is not, no brace is emitted;
in both cases the braces of the emitted text match and each of the four names
has C language linkage. -/
theorem C6_linkage_wrapper (st : List (String × List Tok))
    (h : isDefined st guardMacro = false) (hc : noTextMacro fontsH st = true) :
    ∃ out st1, includeFile fontsH st = Except.ok (out, st1) ∧
      (linkageOpen ∈ out ↔ isDefined st cplusplusMacro = true) ∧
      (linkageClose ∈ out ↔ isDefined st cplusplusMacro = true) ∧
      (isDefined st cplusplusMacro = true →
        out = [Item.included "lvgl/lvgl.h"] ++ [linkageOpen] ++ declLines ++ [linkageClose]) ∧
      (isDefined st cplusplusMacro = false →
        out = [Item.included "lvgl/lvgl.h"] ++ declLines ∧
        Tok.punct '\x7b' ∉ tokensOf out ∧ Tok.punct '\x7d' ∉ tokensOf out) ∧
      declsOf declLines = fourDecls ∧
      bracesMatched out = true ∧
      linkages (unitLang st) out =
        some [ ("quicksand_200", Lang.c), ("open_sans_48", Lang.c),
               ("sf_symbols_48", Lang.c), ("cursor", Lang.c) ] := by
  refine ⟨_, _, includeFile_fresh st h hc, ?_⟩
  cases hcpp : isDefined st cplusplusMacro
  · rw [if_neg (by simp)]
    refine ⟨?_, ?_, ?_, ?_, ?_, ?_, ?_⟩
    · exact iff_of_false (by decide) (by simp)
    · exact iff_of_false (by decide) (by simp)
    · intro hp; exact absurd hp (by simp)
    · intro _; exact ⟨rfl, by decide, by decide⟩
    · decide
    · decide
    · rw [unitLang, hcpp, if_neg (by simp)]; decide
  · rw [if_pos rfl]
    refine ⟨?_, ?_, ?_, ?_, ?_, ?_, ?_⟩
    · exact iff_of_true (by decide) rfl
    · exact iff_of_true (by decide) rfl
    · intro _; rfl
    · intro hn; exact absurd hn (by simp)
    · decide
    · decide
    · rw [unitLang, hcpp, if_pos rfl]; decide

/-- Witness of the amended C6 in a C++ unit. -/
theorem C6_linkage_wrapper_witness :
    isDefined cppTable guardMacro = false ∧ noTextMacro fontsH cppTable = true ∧
    ∃ out st1, includeFile fontsH cppTable = Except.ok (out, st1) ∧
      (linkageOpen ∈ out ↔ isDefined cppTable cplusplusMacro = true) ∧
      (linkageClose ∈ out ↔ isDefined cppTable cplusplusMacro = true) ∧
      (isDefined cppTable cplusplusMacro = true →
        out = [Item.included "lvgl/lvgl.h"] ++ [linkageOpen] ++ declLines ++ [linkageClose]) ∧
      (isDefined cppTable cplusplusMacro = false →
        out = [Item.included "lvgl/lvgl.h"] ++ declLines ∧
        Tok.punct '\x7b' ∉ tokensOf out ∧ Tok.punct '\x7d' ∉ tokensOf out) ∧
      declsOf declLines = fourDecls ∧
      bracesMatched out = true ∧
      linkages (unitLang cppTable) out =
        some [ ("quicksand_200", Lang.c), ("open_sans_48", Lang.c),
               ("sf_symbols_48", Lang.c), ("cursor", Lang.c) ] :=
  ⟨by decide, by decide, C6_linkage_wrapper cppTable (by decide) (by decide)⟩

end Fonts
